import Mathlib

/-!
Verification of the configuration/artifact I/O layer of the
Wine-Quality-Prediction repository (src/WineQuality/utils/common.py).

The Python module is embedded shallowly as pure Lean functions over an
explicit program state `PState` that records:
  - the YAML files on disk (`yamlFS`), each file abstracted by what
    `yaml.safe_load` produces for it: a mapping, the empty document
    (`None`), or a parse failure;
  - the JSON files on disk (`jsonFS`), each file abstracted as the token
    stream its text lexes to (the purely lexical layer - whitespace,
    the 4-space indent written by `json.dump`, digit/escape rendering -
    is below the granularity of this model);
  - the binary artifact files (`binFS`), each either a well-formed blob
    or corrupt;
  - the existing directories (`dirs`), a directory being a list of path
    segments, with `os.makedirs` creating every missing ancestor;
  - the byte sizes of files (`sizeFS`) as queried by `os.path.getsize`;
  - the process-wide YAML cache `_yaml_cache` (`cache`);
  - the emitted log lines (`log`) with their levels;
  - an instrumentation counter `reads` counting every call of the
    file-open-for-reading primitive, as the spec asks ("verify via
    call-count instrumentation on the file-open primitive").

Python exceptions are embedded as an error type `PyErr`; a fallible
operation returns `Except PyErr A` together with the final state.
`str(e)` renderings of exception objects are abstracted by `errStr`.
Floating-point formatting with two decimal places (Python `:.2f`) is
embedded as exact rational rounding to hundredths with ties to even,
which agrees with CPython for every size below 2^53 because n/1024 and
n/1048576 are then exactly representable doubles.
-/

/-- A filesystem path, as a list of path segments. -/
abbrev FPath := List String

def slashSep : String := "/"

/-- Rendering of a path in log messages (what a Python f-string prints). -/
def pathStr (p : FPath) : String :=
  String.intercalate slashSep p

/-- Log levels used by the module (it only ever calls info and error). -/
inductive LogLevel where
  | info
  | error
deriving DecidableEq

/-- One emitted log line. -/
structure LogEntry where
  level : LogLevel
  msg : String
deriving DecidableEq

/-- JSON-style values: the content a config or artifact document can hold.
Scalars are null, booleans, integers and strings; composites are arrays
and string-keyed objects. -/
inductive JVal where
  | jnull : JVal
  | jbool : Bool → JVal
  | jint : Int → JVal
  | jstr : String → JVal
  | jarr : List JVal → JVal
  | jobj : List (String × JVal) → JVal

/-- The `ConfigBox` wrapper from the `box` library: an immutable document
view over a parsed mapping, compared by content. -/
structure ConfigBox where
  content : JVal

/-- What `yaml.safe_load` yields for a YAML file on disk: the empty
document (`None`), a mapping, or a parse failure carrying a message. -/
inductive YamlFile where
  | empty : YamlFile
  | mapping : JVal → YamlFile
  | malformed : String → YamlFile

/-- A dynamically typed Python value arriving at a public entry point or
stored as an opaque binary artifact. -/
inductive PyVal where
  | vpath : FPath → PyVal
  | vstr : String → PyVal
  | vint : Int → PyVal
  | vbool : Bool → PyVal
  | vdict : List (String × JVal) → PyVal
  | vlist : List PyVal → PyVal

/-- A binary artifact file: a well-formed joblib blob or corrupt bytes. -/
inductive BinFile where
  | blob : PyVal → BinFile
  | corrupt : String → BinFile

/-- Embedded Python exceptions raised by the module and its callees. -/
inductive PyErr where
  | valueError : String → PyErr
  | boxValueError : PyErr
  | fileNotFound : String → PyErr
  | yamlParseError : String → PyErr
  | jsonDecodeError : String → PyErr
  | unpicklingError : String → PyErr
  | ensureError : String → PyErr
  | typeError : String → PyErr
deriving DecidableEq

/-- `str(e)` for an embedded exception (renderings abstracted). -/
def errStr : PyErr → String
  | .valueError m => m
  | .boxValueError => "First argument must be mapping or iterable"
  | .fileNotFound pth => "No such file or directory: " ++ pth
  | .yamlParseError m => m
  | .jsonDecodeError m => m
  | .unpicklingError m => m
  | .ensureError m => m
  | .typeError m => m

/-- First-match association-list lookup (Python dict lookup). -/
def lookupA {A : Type} : List (FPath × A) → FPath → Option A
  | [], _ => none
  | (k, v) :: rest, q => if q = k then some v else lookupA rest q

/-- JSON tokens: what the text of a JSON file on disk lexes to. -/
inductive Tok where
  | lbrace : Tok
  | rbrace : Tok
  | lbrack : Tok
  | rbrack : Tok
  | colon : Tok
  | comma : Tok
  | tnull : Tok
  | tbool : Bool → Tok
  | tint : Int → Tok
  | tstr : String → Tok
deriving DecidableEq

/-- The program state threaded through every embedded operation. -/
structure PState where
  yamlFS : List (FPath × YamlFile)
  jsonFS : List (FPath × List Tok)
  binFS : List (FPath × BinFile)
  sizeFS : List (FPath × Nat)
  dirs : List FPath
  cache : List (FPath × JVal)
  log : List LogEntry
  reads : Nat

mutual
/-- Serialization of a JSON value to tokens: the token stream of the text
`json.dump(v, f, indent=4)` writes (whitespace does not reach the token
level). -/
def dumpToks : JVal → List Tok
  | .jnull => [.tnull]
  | .jbool b => [.tbool b]
  | .jint n => [.tint n]
  | .jstr s => [.tstr s]
  | .jarr xs => .lbrack :: (dumpArr xs ++ [.rbrack])
  | .jobj kvs => .lbrace :: (dumpObj kvs ++ [.rbrace])

def dumpArr : List JVal → List Tok
  | [] => []
  | [x] => dumpToks x
  | x :: y :: ys => dumpToks x ++ .comma :: dumpArr (y :: ys)

def dumpObj : List (String × JVal) → List Tok
  | [] => []
  | [(k, v)] => .tstr k :: .colon :: dumpToks v
  | (k, v) :: kv :: kvs => .tstr k :: .colon :: dumpToks v ++ .comma :: dumpObj (kv :: kvs)
end

mutual
/-- Recursive-descent parsing of a JSON value from tokens, the model of
`json.load`; the fuel argument bounds recursion depth and is chosen large
enough by the caller. -/
def parseVal : Nat → List Tok → Option (JVal × List Tok)
  | 0, _ => none
  | _ + 1, .tnull :: r => some (.jnull, r)
  | _ + 1, .tbool b :: r => some (.jbool b, r)
  | _ + 1, .tint n :: r => some (.jint n, r)
  | _ + 1, .tstr s :: r => some (.jstr s, r)
  | f + 1, .lbrack :: r =>
    match parseArr f r with
    | none => none
    | some (vs, r2) => some (.jarr vs, r2)
  | f + 1, .lbrace :: r =>
    match parseObj f r with
    | none => none
    | some (kvs, r2) => some (.jobj kvs, r2)
  | _ + 1, _ => none

def parseArr : Nat → List Tok → Option (List JVal × List Tok)
  | 0, _ => none
  | _ + 1, .rbrack :: r => some ([], r)
  | f + 1, ts =>
    match parseVal f ts with
    | none => none
    | some (v, .comma :: r) =>
      match parseArr f r with
      | none => none
      | some (vs, r2) => some (v :: vs, r2)
    | some (v, .rbrack :: r) => some ([v], r)
    | some (_, _) => none

def parseObj : Nat → List Tok → Option (List (String × JVal) × List Tok)
  | 0, _ => none
  | _ + 1, .rbrace :: r => some ([], r)
  | f + 1, .tstr k :: .colon :: ts =>
    match parseVal f ts with
    | none => none
    | some (v, .comma :: r) =>
      match parseObj f r with
      | none => none
      | some (kvs, r2) => some ((k, v) :: kvs, r2)
    | some (v, .rbrace :: r) => some ([(k, v)], r)
    | some (_, _) => none
  | _ + 1, _ => none
end

mutual
/-- Recursion depth sufficient for `parseVal` to parse `dumpToks v`. -/
def vfuel : JVal → Nat
  | .jarr xs => afuel xs + 1
  | .jobj kvs => ofuel kvs + 1
  | _ => 1

def afuel : List JVal → Nat
  | [] => 1
  | x :: xs => vfuel x + afuel xs + 1

def ofuel : List (String × JVal) → Nat
  | [] => 1
  | (_, v) :: kvs => vfuel v + ofuel kvs + 1
end

/-- Log message of the `read_yaml` cache hit
(`f"yaml file: {path_to_yaml} retrieved from cache"`). -/
def yamlCacheHitMsg (p : FPath) : String :=
  "yaml file: " ++ pathStr p ++ " retrieved from cache"

/-- Log message of a successful YAML parse
(`f"yaml file: {path_to_yaml} loaded successfully"`). -/
def yamlLoadedMsg (p : FPath) : String :=
  "yaml file: " ++ pathStr p ++ " loaded successfully"

/-- Error-log message of `read_yaml`
(`f"Error reading YAML file at {path_to_yaml}: {e}"`). -/
def yamlErrorMsg (p : FPath) (e : PyErr) : String :=
  "Error reading YAML file at " ++ pathStr p ++ ": " ++ errStr e

/-- Log message of `create_directories` for a created directory
(`f"Created directory at: {path}"`). -/
def dirCreatedMsg (p : FPath) : String :=
  "Created directory at: " ++ pathStr p

/-- Log message of `create_directories` for a pre-existing directory
(`f"Directory already exists at: {path}"`). -/
def dirExistsMsg (p : FPath) : String :=
  "Directory already exists at: " ++ pathStr p

/-- Log message of `save_json` (`f"JSON file saved at: {path}"`). -/
def jsonSavedMsg (p : FPath) : String :=
  "JSON file saved at: " ++ pathStr p

/-- Log message of `load_json`
(`f"JSON file loaded successfully from: {path}"`). -/
def jsonLoadedMsg (p : FPath) : String :=
  "JSON file loaded successfully from: " ++ pathStr p

/-- Log message of `save_bin` (`f"Binary file saved at: {path}"`). -/
def binSavedMsg (p : FPath) : String :=
  "Binary file saved at: " ++ pathStr p

/-- Log message of `load_bin` (`f"Binary file loaded from: {path}"`). -/
def binLoadedMsg (p : FPath) : String :=
  "Binary file loaded from: " ++ pathStr p

/-- The message of the `ValueError` that `read_yaml` raises for an empty
document. -/
def emptyYamlMsg : String := "yaml file is empty"

/-- `open(path)` followed by `yaml.safe_load`: the underlying primitive
`read_yaml` wraps. A missing file raises `FileNotFoundError` at `open`;
malformed text raises a YAML parse error; otherwise the parsed content is
returned, `none` standing for Python `None` (empty document). -/
def yamlLoad (fs : List (FPath × YamlFile)) (p : FPath) : Except PyErr (Option JVal) :=
  match lookupA fs p with
  | none => .error (.fileNotFound (pathStr p))
  | some .empty => .ok none
  | some (.mapping v) => .ok (some v)
  | some (.malformed m) => .error (.yamlParseError m)

/-- Embedding of `read_yaml` (common.py lines 17-50).

If the path is a key of `_yaml_cache`, the cached `ConfigBox` is returned
after an info log, with no filesystem access. Otherwise the file is
opened (instrumentation counter `reads` is incremented) and parsed:
  - on parsed content, the source logs success, wraps the content in a
    `ConfigBox`, stores it in the cache and returns it; note that the
    success log precedes the `ConfigBox` construction in the source;
  - on an empty document (`safe_load` returned `None`), the success log
    has already been emitted, then `ConfigBox(None)` raises
    `BoxValueError`, which the first `except` arm converts into
    `ValueError("yaml file is empty")`, with no error log;
  - on any other failure, the second `except` arm logs an error with the
    path and the cause, then re-raises the original exception unchanged. -/
def read_yaml (s : PState) (p : FPath) : Except PyErr ConfigBox × PState :=
  match lookupA s.cache p with
  | some v =>
    (.ok ⟨v⟩, { s with log := s.log ++ [⟨.info, yamlCacheHitMsg p⟩] })
  | none =>
    let s1 : PState := { s with reads := s.reads + 1 }
    match yamlLoad s.yamlFS p with
    | .ok (some v) =>
      (.ok ⟨v⟩,
        { s1 with
          cache := (p, v) :: s1.cache,
          log := s1.log ++ [⟨.info, yamlLoadedMsg p⟩] })
    | .ok none =>
      (.error (.valueError emptyYamlMsg),
        { s1 with log := s1.log ++ [⟨.info, yamlLoadedMsg p⟩] })
    | .error e =>
      (.error e, { s1 with log := s1.log ++ [⟨.error, yamlErrorMsg p e⟩] })

/-- The proper ancestors and the path itself, excluding the empty path:
the set of directories `os.makedirs(path, exist_ok=True)` guarantees to
exist afterwards. -/
def pathInits (p : FPath) : List FPath :=
  (List.inits p).filter (fun q => q ≠ [])

/-- Creation of a single directory if missing: the unit step of
`os.makedirs`. -/
def addDir (acc : List FPath) (q : FPath) : List FPath :=
  if q ∈ acc then acc else acc ++ [q]

/-- `os.makedirs(p, exist_ok=True)` on the directory component of the
state: every missing ancestor of `p`, and `p` itself, is created. -/
def makedirs (ds : List FPath) (p : FPath) : List FPath :=
  (pathInits p).foldl addDir ds

/-- One iteration of the loop body of `create_directories`. -/
def createDirStep (vb : Bool) (s : PState) (p : FPath) : PState :=
  if p ∈ s.dirs then
    if vb then { s with log := s.log ++ [⟨.info, dirExistsMsg p⟩] } else s
  else
    { s with
      dirs := makedirs s.dirs p,
      log := if vb then s.log ++ [⟨.info, dirCreatedMsg p⟩] else s.log }

/-- Embedding of `create_directories` (common.py lines 53-67): for each
listed path in order, create it (with every missing parent) unless it
already exists, logging according to `verbose`. -/
def create_directories (s : PState) (ps : List FPath) (vb : Bool) : PState :=
  ps.foldl (createDirStep vb) s

/-- Embedding of `save_json` (common.py lines 70-81): serialize the
mapping to the target file (overwriting it), then log success. -/
def save_json (s : PState) (p : FPath) (d : List (String × JVal)) : PState :=
  { s with
    jsonFS := (p, dumpToks (.jobj d)) :: s.jsonFS,
    log := s.log ++ [⟨.info, jsonSavedMsg p⟩] }

def jsonInvalidMsg : String := "Expecting value"

/-- The model of `json.load` on a lexed file: parse one value consuming
the whole stream, with recursion depth generously bounded by twice the
token count. -/
def jsonParse (ts : List Tok) : Except PyErr JVal :=
  match parseVal (2 * ts.length + 2) ts with
  | some (v, []) => .ok v
  | _ => .error (.jsonDecodeError jsonInvalidMsg)

/-- Embedding of `load_json` (common.py lines 84-98): open and parse the
file (no caching), log success, then wrap the content in a `ConfigBox`.
A missing file fails at `open`, malformed text fails at `json.load`,
both before the log call; top-level non-mapping content makes the final
`ConfigBox(content)` raise after the success log. No failure is logged. -/
def load_json (s : PState) (p : FPath) : Except PyErr ConfigBox × PState :=
  let s1 : PState := { s with reads := s.reads + 1 }
  match lookupA s.jsonFS p with
  | none => (.error (.fileNotFound (pathStr p)), s1)
  | some ts =>
    match jsonParse ts with
    | .error e => (.error e, s1)
    | .ok v =>
      let s2 : PState := { s1 with log := s1.log ++ [⟨.info, jsonLoadedMsg p⟩] }
      match v with
      | .jobj kvs => (.ok ⟨.jobj kvs⟩, s2)
      | _ => (.error .boxValueError, s2)

/-- Embedding of `save_bin` (common.py lines 101-111): dump the value to
the target file with joblib, then log success. -/
def save_bin (s : PState) (v : PyVal) (p : FPath) : PState :=
  { s with
    binFS := (p, .blob v) :: s.binFS,
    log := s.log ++ [⟨.info, binSavedMsg p⟩] }

/-- Embedding of `load_bin` (common.py lines 114-127): load the value
with joblib, then log success. A missing or corrupt file fails before
the log call; no failure is logged. -/
def load_bin (s : PState) (p : FPath) : Except PyErr PyVal × PState :=
  let s1 : PState := { s with reads := s.reads + 1 }
  match lookupA s.binFS p with
  | none => (.error (.fileNotFound (pathStr p)), s1)
  | some (.corrupt m) => (.error (.unpicklingError m), s1)
  | some (.blob v) =>
    (.ok v, { s1 with log := s1.log ++ [⟨.info, binLoadedMsg p⟩] })

/-- Rounding of the fraction `a / b` to the nearest integer with ties to
even: how a binary double that holds `a / b` exactly is rounded when
formatted for display. -/
def roundHalfEven (a b : Nat) : Nat :=
  let q := a / b
  let r := a % b
  if 2 * r < b then q
  else if b < 2 * r then q + 1
  else if q % 2 = 0 then q else q + 1

/-- Two-digit rendering of a number below 100. -/
def twoDigits (m : Nat) : String :=
  (if m < 10 then "0" else "") ++ toString m

/-- Python `f"{num / den:.2f}"` for natural `num` and positive `den`:
the quotient printed with exactly two decimal places. Exact for every
`num / 1024` and `num / 1048576` whose numerator is below `2 ^ 53`,
where the double holds the quotient exactly. -/
def fix2 (num den : Nat) : String :=
  let h := roundHalfEven (100 * num) den
  toString (h / 100) ++ "." ++ twoDigits (h % 100)

/-- The format selection of `get_size` on a byte count (common.py lines
140-146): bytes below 1024, KB below 1024 squared, MB from there on,
the scaled tiers carrying the `~` approximation marker. -/
def formatSize (n : Nat) : String :=
  if n < 1024 then toString n ++ " bytes"
  else if n < 1024 ^ 2 then "~ " ++ fix2 n 1024 ++ " KB"
  else "~ " ++ fix2 n (1024 ^ 2) ++ " MB"

/-- Embedding of `get_size` (common.py lines 130-146): query the byte
size with `os.path.getsize` (a missing path raises `FileNotFoundError`)
and format it; no log line is emitted on any path through it. -/
def get_size (s : PState) (p : FPath) : Except PyErr String :=
  match lookupA s.sizeFS p with
  | none => .error (.fileNotFound (pathStr p))
  | some n => .ok (formatSize n)

def ensureMsg : String := "argument is not of the declared type"

/-- The `@ensure_annotations` wrapper around `read_yaml`: the decorator
checks every argument against its declared type and raises an
`EnsureError` before the function body runs, so a mistyped call touches
neither the filesystem nor the cache nor the log. -/
def read_yaml_dyn (s : PState) (a : PyVal) : Except PyErr ConfigBox × PState :=
  match a with
  | .vpath p => read_yaml s p
  | _ => (.error (.ensureError ensureMsg), s)

/-- The `@ensure_annotations` wrapper around `load_json`. -/
def load_json_dyn (s : PState) (a : PyVal) : Except PyErr ConfigBox × PState :=
  match a with
  | .vpath p => load_json s p
  | _ => (.error (.ensureError ensureMsg), s)

/-- The `@ensure_annotations` wrapper around `save_json`: both the
`path : Path` and the `data : dict` declarations are checked before the
body runs. -/
def save_json_dyn (s : PState) (a b : PyVal) : Except PyErr Unit × PState :=
  match a, b with
  | .vpath p, .vdict d => (.ok (), save_json s p d)
  | _, _ => (.error (.ensureError ensureMsg), s)

def osPathTypeMsg : String := "argument should be a str or an os.PathLike object"

/-- The loop body of `create_directories` run on dynamically typed list
elements: a path element performs one provisioning step; any other
element makes `os.path.exists` raise `TypeError` there, after the
directories of the earlier elements were already created. -/
def createDirsLoop (s : PState) (vb : Bool) : List PyVal → Except PyErr Unit × PState
  | [] => (.ok (), s)
  | .vpath p :: rest => createDirsLoop (createDirStep vb s p) vb rest
  | _ :: _ => (.error (.typeError osPathTypeMsg), s)

/-- The `@ensure_annotations` wrapper around `create_directories`: the
first parameter is declared `list`, so any non-list argument raises
`EnsureError` before the body runs (the `verbose` parameter carries no
declared type and is not checked). -/
def create_directories_dyn (s : PState) (a : PyVal) (vb : Bool) :
    Except PyErr Unit × PState :=
  match a with
  | .vlist elems => createDirsLoop s vb elems
  | _ => (.error (.ensureError ensureMsg), s)

/-- The `@ensure_annotations` wrapper around `save_bin`: `data` is
declared `Any` and accepts every value; `path` must be a Path. -/
def save_bin_dyn (s : PState) (dat pth : PyVal) : Except PyErr Unit × PState :=
  match pth with
  | .vpath p => (.ok (), save_bin s dat p)
  | _ => (.error (.ensureError ensureMsg), s)

/-- The `@ensure_annotations` wrapper around `load_bin`. -/
def load_bin_dyn (s : PState) (a : PyVal) : Except PyErr PyVal × PState :=
  match a with
  | .vpath p => load_bin s p
  | _ => (.error (.ensureError ensureMsg), s)

/-- The `@ensure_annotations` wrapper around `get_size`. -/
def get_size_dyn (s : PState) (a : PyVal) : Except PyErr String × PState :=
  match a with
  | .vpath p => (get_size s p, s)
  | _ => (.error (.ensureError ensureMsg), s)

theorem vfuel_pos (v : JVal) : 1 ≤ vfuel v := by
  cases v <;> simp [vfuel]

theorem afuel_pos (xs : List JVal) : 1 ≤ afuel xs := by
  cases xs <;> simp [afuel]

theorem ofuel_pos (kvs : List (String × JVal)) : 1 ≤ ofuel kvs := by
  cases kvs with
  | nil => simp [ofuel]
  | cons kv kvs2 => obtain ⟨k, v⟩ := kv; simp [ofuel]

theorem dump_head (v : JVal) :
    ∃ t ts0, dumpToks v = t :: ts0 ∧ t ≠ .rbrack ∧ t ≠ .rbrace := by
  cases v <;> exact ⟨_, _, rfl, nofun, nofun⟩

theorem parseArr_cons (f : Nat) (t : Tok) (ts : List Tok) (h : t ≠ .rbrack) :
    parseArr (f + 1) (t :: ts) =
      match parseVal f (t :: ts) with
      | none => none
      | some (v, .comma :: r) =>
        match parseArr f r with
        | none => none
        | some (vs, r2) => some (v :: vs, r2)
      | some (v, .rbrack :: r) => some ([v], r)
      | some (_, _) => none := by
  cases t <;> first | rfl | exact absurd rfl h

theorem parse_dump_fuel (f : Nat) :
    (∀ (v : JVal) (rest : List Tok), vfuel v ≤ f →
      parseVal f (dumpToks v ++ rest) = some (v, rest)) ∧
    (∀ (xs : List JVal) (rest : List Tok), afuel xs ≤ f →
      parseArr f (dumpArr xs ++ .rbrack :: rest) = some (xs, rest)) ∧
    (∀ (kvs : List (String × JVal)) (rest : List Tok), ofuel kvs ≤ f →
      parseObj f (dumpObj kvs ++ .rbrace :: rest) = some (kvs, rest)) := by
  induction f with
  | zero =>
    refine ⟨?_, ?_, ?_⟩
    · intro v rest h; have := vfuel_pos v; omega
    · intro xs rest h; have := afuel_pos xs; omega
    · intro kvs rest h; have := ofuel_pos kvs; omega
  | succ f ih =>
    obtain ⟨ihv, iha, iho⟩ := ih
    refine ⟨?_, ?_, ?_⟩
    · intro v rest h
      cases v with
      | jnull => rfl
      | jbool b => rfl
      | jint n => rfl
      | jstr s => rfl
      | jarr xs =>
        have hf : vfuel (JVal.jarr xs) = afuel xs + 1 := rfl
        have ha : afuel xs ≤ f := by omega
        have he : dumpToks (.jarr xs) ++ rest =
            .lbrack :: (dumpArr xs ++ .rbrack :: rest) := by
          simp [dumpToks]
        rw [he]
        have hr : parseVal (f + 1) (.lbrack :: (dumpArr xs ++ .rbrack :: rest)) =
            match parseArr f (dumpArr xs ++ .rbrack :: rest) with
            | none => none
            | some (vs, r2) => some (.jarr vs, r2) := rfl
        rw [hr, iha xs rest ha]
      | jobj kvs =>
        have hf : vfuel (JVal.jobj kvs) = ofuel kvs + 1 := rfl
        have ha : ofuel kvs ≤ f := by omega
        have he : dumpToks (.jobj kvs) ++ rest =
            .lbrace :: (dumpObj kvs ++ .rbrace :: rest) := by
          simp [dumpToks]
        rw [he]
        have hr : parseVal (f + 1) (.lbrace :: (dumpObj kvs ++ .rbrace :: rest)) =
            match parseObj f (dumpObj kvs ++ .rbrace :: rest) with
            | none => none
            | some (kvs2, r2) => some (.jobj kvs2, r2) := rfl
        rw [hr, iho kvs rest ha]
    · intro xs rest h
      cases xs with
      | nil => rfl
      | cons x xs2 =>
        obtain ⟨t, ts0, hd, hne, _⟩ := dump_head x
        cases xs2 with
        | nil =>
          have h1 : afuel [x] = vfuel x + afuel [] + 1 := rfl
          have h2 : afuel ([] : List JVal) = 1 := rfl
          have hv : vfuel x ≤ f := by omega
          have he : dumpArr [x] ++ .rbrack :: rest = t :: (ts0 ++ .rbrack :: rest) := by
            have : dumpArr [x] = dumpToks x := rfl
            rw [this, hd]; simp
          rw [he, parseArr_cons f t _ hne]
          have hp : parseVal f (t :: (ts0 ++ .rbrack :: rest)) =
              some (x, .rbrack :: rest) := by
            have hx := ihv x (.rbrack :: rest) hv
            rw [hd] at hx
            simpa using hx
          rw [hp]
        | cons y ys =>
          have h1 : afuel (x :: y :: ys) = vfuel x + afuel (y :: ys) + 1 := rfl
          have hv : vfuel x ≤ f := by have := afuel_pos (y :: ys); omega
          have ha : afuel (y :: ys) ≤ f := by have := vfuel_pos x; omega
          have he : dumpArr (x :: y :: ys) ++ .rbrack :: rest =
              t :: (ts0 ++ .comma :: (dumpArr (y :: ys) ++ .rbrack :: rest)) := by
            have : dumpArr (x :: y :: ys) = dumpToks x ++ .comma :: dumpArr (y :: ys) := rfl
            rw [this, hd]; simp
          rw [he, parseArr_cons f t _ hne]
          have hp : parseVal f (t :: (ts0 ++ .comma :: (dumpArr (y :: ys) ++ .rbrack :: rest))) =
              some (x, .comma :: (dumpArr (y :: ys) ++ .rbrack :: rest)) := by
            have hx := ihv x (.comma :: (dumpArr (y :: ys) ++ .rbrack :: rest)) hv
            rw [hd] at hx
            simpa using hx
          rw [hp]
          show (match parseArr f (dumpArr (y :: ys) ++ .rbrack :: rest) with
            | none => none
            | some (vs, r2) => some (x :: vs, r2)) = some (x :: y :: ys, rest)
          rw [iha (y :: ys) rest ha]
    · intro kvs rest h
      cases kvs with
      | nil => rfl
      | cons kv kvs2 =>
        obtain ⟨k, v⟩ := kv
        cases kvs2 with
        | nil =>
          have h1 : ofuel [(k, v)] = vfuel v + ofuel [] + 1 := rfl
          have h2 : ofuel ([] : List (String × JVal)) = 1 := rfl
          have hv : vfuel v ≤ f := by omega
          have he : dumpObj [(k, v)] ++ .rbrace :: rest =
              .tstr k :: .colon :: (dumpToks v ++ .rbrace :: rest) := by
            have : dumpObj [(k, v)] = .tstr k :: .colon :: dumpToks v := rfl
            rw [this]; simp
          rw [he]
          have hr : parseObj (f + 1) (.tstr k :: .colon :: (dumpToks v ++ .rbrace :: rest)) =
              match parseVal f (dumpToks v ++ .rbrace :: rest) with
              | none => none
              | some (v2, .comma :: r) =>
                match parseObj f r with
                | none => none
                | some (kvs3, r2) => some ((k, v2) :: kvs3, r2)
              | some (v2, .rbrace :: r) => some ([(k, v2)], r)
              | some (_, _) => none := rfl
          rw [hr, ihv v (.rbrace :: rest) hv]
        | cons kv2 kvs3 =>
          obtain ⟨k2, v2⟩ := kv2
          have h1 : ofuel ((k, v) :: (k2, v2) :: kvs3) =
              vfuel v + ofuel ((k2, v2) :: kvs3) + 1 := rfl
          have hv : vfuel v ≤ f := by have := ofuel_pos ((k2, v2) :: kvs3); omega
          have ho : ofuel ((k2, v2) :: kvs3) ≤ f := by have := vfuel_pos v; omega
          have he : dumpObj ((k, v) :: (k2, v2) :: kvs3) ++ .rbrace :: rest =
              .tstr k :: .colon ::
                (dumpToks v ++ .comma :: (dumpObj ((k2, v2) :: kvs3) ++ .rbrace :: rest)) := by
            have : dumpObj ((k, v) :: (k2, v2) :: kvs3) =
                .tstr k :: .colon :: dumpToks v ++ .comma :: dumpObj ((k2, v2) :: kvs3) := rfl
            rw [this]; simp
          rw [he]
          have hr : parseObj (f + 1)
              (.tstr k :: .colon ::
                (dumpToks v ++ .comma :: (dumpObj ((k2, v2) :: kvs3) ++ .rbrace :: rest))) =
              match parseVal f
                  (dumpToks v ++ .comma :: (dumpObj ((k2, v2) :: kvs3) ++ .rbrace :: rest)) with
              | none => none
              | some (v3, .comma :: r) =>
                match parseObj f r with
                | none => none
                | some (kvs4, r2) => some ((k, v3) :: kvs4, r2)
              | some (v3, .rbrace :: r) => some ([(k, v3)], r)
              | some (_, _) => none := rfl
          rw [hr, ihv v (.comma :: (dumpObj ((k2, v2) :: kvs3) ++ .rbrace :: rest)) hv]
          show (match parseObj f (dumpObj ((k2, v2) :: kvs3) ++ .rbrace :: rest) with
            | none => none
            | some (kvs4, r2) => some ((k, v) :: kvs4, r2)) = some ((k, v) :: (k2, v2) :: kvs3, rest)
          rw [iho ((k2, v2) :: kvs3) rest ho]

theorem jval_size_pos (v : JVal) : 1 ≤ sizeOf v := by
  cases v <;> simp

theorem list_size_pos {A : Type} [SizeOf A] (xs : List A) : 1 ≤ sizeOf xs := by
  cases xs with
  | nil => simp
  | cons x xs2 => simp; omega

theorem fuel_le_dump : ∀ n : Nat,
    (∀ v : JVal, sizeOf v ≤ n → vfuel v ≤ 2 * (dumpToks v).length) ∧
    (∀ xs : List JVal, sizeOf xs ≤ n → afuel xs ≤ 2 * (dumpArr xs).length + 3) ∧
    (∀ kvs : List (String × JVal), sizeOf kvs ≤ n →
      ofuel kvs ≤ 2 * (dumpObj kvs).length + 3) := by
  intro n
  induction n with
  | zero =>
    refine ⟨?_, ?_, ?_⟩
    · intro v h; have := jval_size_pos v; omega
    · intro xs h; have := list_size_pos xs; omega
    · intro kvs h; have := list_size_pos kvs; omega
  | succ n ih =>
    obtain ⟨ihv, iha, iho⟩ := ih
    refine ⟨?_, ?_, ?_⟩
    · intro v hv
      cases v with
      | jnull =>
        have h1 : vfuel .jnull = 1 := rfl
        have h2 : (dumpToks .jnull).length = 1 := rfl
        omega
      | jbool b =>
        have h1 : vfuel (.jbool b) = 1 := rfl
        have h2 : (dumpToks (.jbool b)).length = 1 := rfl
        omega
      | jint m =>
        have h1 : vfuel (.jint m) = 1 := rfl
        have h2 : (dumpToks (.jint m)).length = 1 := rfl
        omega
      | jstr s =>
        have h1 : vfuel (.jstr s) = 1 := rfl
        have h2 : (dumpToks (.jstr s)).length = 1 := rfl
        omega
      | jarr xs =>
        have h1 : vfuel (.jarr xs) = afuel xs + 1 := rfl
        have h2 : (dumpToks (.jarr xs)).length = (dumpArr xs).length + 2 := by
          have he : dumpToks (.jarr xs) = .lbrack :: (dumpArr xs ++ [.rbrack]) := rfl
          rw [he]; simp
        have h3 : sizeOf (JVal.jarr xs) = 1 + sizeOf xs := by simp
        have h4 := iha xs (by omega)
        omega
      | jobj kvs =>
        have h1 : vfuel (.jobj kvs) = ofuel kvs + 1 := rfl
        have h2 : (dumpToks (.jobj kvs)).length = (dumpObj kvs).length + 2 := by
          have he : dumpToks (.jobj kvs) = .lbrace :: (dumpObj kvs ++ [.rbrace]) := rfl
          rw [he]; simp
        have h3 : sizeOf (JVal.jobj kvs) = 1 + sizeOf kvs := by simp
        have h4 := iho kvs (by omega)
        omega
    · intro xs hx
      cases xs with
      | nil =>
        have h1 : afuel ([] : List JVal) = 1 := rfl
        have h2 : (dumpArr ([] : List JVal)).length = 0 := rfl
        omega
      | cons x xs2 =>
        have hs : sizeOf (x :: xs2) = 1 + sizeOf x + sizeOf xs2 := by simp
        cases xs2 with
        | nil =>
          have h0 : afuel ([] : List JVal) = 1 := rfl
          have h1 : afuel [x] = vfuel x + afuel [] + 1 := rfl
          have h2 : dumpArr [x] = dumpToks x := rfl
          have h2l : (dumpArr [x]).length = (dumpToks x).length := by rw [h2]
          have hnil : sizeOf ([] : List JVal) = 1 := by simp
          have h4 := ihv x (by omega)
          omega
        | cons y ys =>
          have h1 : afuel (x :: y :: ys) = vfuel x + afuel (y :: ys) + 1 := rfl
          have h2 : (dumpArr (x :: y :: ys)).length =
              (dumpToks x).length + 1 + (dumpArr (y :: ys)).length := by
            have he : dumpArr (x :: y :: ys) = dumpToks x ++ .comma :: dumpArr (y :: ys) := rfl
            rw [he]; simp; omega
          have hp1 := jval_size_pos x
          have hp2 := list_size_pos (y :: ys)
          have h4 := ihv x (by omega)
          have h5 := iha (y :: ys) (by omega)
          omega
    · intro kvs hk
      cases kvs with
      | nil =>
        have h1 : ofuel ([] : List (String × JVal)) = 1 := rfl
        have h2 : (dumpObj ([] : List (String × JVal))).length = 0 := rfl
        omega
      | cons kv kvs2 =>
        obtain ⟨k, v⟩ := kv
        have hs : sizeOf ((k, v) :: kvs2) = 1 + (1 + sizeOf k + sizeOf v) + sizeOf kvs2 := by
          simp
        cases kvs2 with
        | nil =>
          have h0 : ofuel ([] : List (String × JVal)) = 1 := rfl
          have h1 : ofuel [(k, v)] = vfuel v + ofuel [] + 1 := rfl
          have h2 : (dumpObj [(k, v)]).length = (dumpToks v).length + 2 := by
            have he : dumpObj [(k, v)] = .tstr k :: .colon :: dumpToks v := rfl
            rw [he]; simp
          have hnil : sizeOf ([] : List (String × JVal)) = 1 := by simp
          have h4 := ihv v (by omega)
          omega
        | cons kv2 kvs3 =>
          obtain ⟨k2, v2⟩ := kv2
          have h1 : ofuel ((k, v) :: (k2, v2) :: kvs3) =
              vfuel v + ofuel ((k2, v2) :: kvs3) + 1 := rfl
          have h2 : (dumpObj ((k, v) :: (k2, v2) :: kvs3)).length =
              (dumpToks v).length + 3 + (dumpObj ((k2, v2) :: kvs3)).length := by
            have he : dumpObj ((k, v) :: (k2, v2) :: kvs3) =
                .tstr k :: .colon :: dumpToks v ++ .comma :: dumpObj ((k2, v2) :: kvs3) := rfl
            rw [he]; simp; omega
          have hp1 := jval_size_pos v
          have hp2 := list_size_pos ((k2, v2) :: kvs3)
          have h4 := ihv v (by omega)
          have h5 := iho ((k2, v2) :: kvs3) (by omega)
          omega

theorem parse_dumpToks (v : JVal) :
    parseVal (2 * (dumpToks v).length + 2) (dumpToks v) = some (v, []) := by
  have h1 := (fuel_le_dump (sizeOf v)).1 v le_rfl
  have h2 := (parse_dump_fuel (2 * (dumpToks v).length + 2)).1 v [] (by omega)
  simpa using h2

theorem jsonParse_dump (v : JVal) : jsonParse (dumpToks v) = .ok v := by
  unfold jsonParse
  rw [parse_dumpToks]

theorem lookupA_cons_self {A : Type} (rest : List (FPath × A)) (p : FPath) (v : A) :
    lookupA ((p, v) :: rest) p = some v := by
  unfold lookupA
  simp

theorem read_yaml_hit (s : PState) (p : FPath) (v : JVal)
    (h : lookupA s.cache p = some v) :
    read_yaml s p = (.ok ⟨v⟩, { s with log := s.log ++ [⟨.info, yamlCacheHitMsg p⟩] }) := by
  unfold read_yaml
  rw [h]

theorem read_yaml_ok (s : PState) (p : FPath) (v : JVal)
    (hc : lookupA s.cache p = none) (hf : lookupA s.yamlFS p = some (.mapping v)) :
    read_yaml s p =
      (.ok ⟨v⟩,
        { s with
          reads := s.reads + 1,
          cache := (p, v) :: s.cache,
          log := s.log ++ [⟨.info, yamlLoadedMsg p⟩] }) := by
  unfold read_yaml yamlLoad
  rw [hc, hf]

theorem read_yaml_emptyDoc (s : PState) (p : FPath)
    (hc : lookupA s.cache p = none) (hf : lookupA s.yamlFS p = some .empty) :
    read_yaml s p =
      (.error (.valueError emptyYamlMsg),
        { s with
          reads := s.reads + 1,
          log := s.log ++ [⟨.info, yamlLoadedMsg p⟩] }) := by
  unfold read_yaml yamlLoad
  rw [hc, hf]

theorem read_yaml_err (s : PState) (p : FPath) (e : PyErr)
    (hc : lookupA s.cache p = none) (hf : yamlLoad s.yamlFS p = .error e) :
    read_yaml s p =
      (.error e,
        { s with
          reads := s.reads + 1,
          log := s.log ++ [⟨.error, yamlErrorMsg p e⟩] }) := by
  unfold read_yaml
  rw [hc, hf]

/-- C1: for every path holding a valid (mapping-valued) config file,
calling `read_yaml` twice returns content-equal ConfigBox documents; the
second call performs no filesystem read (the open counter is unchanged)
and instead emits the informational cache-hit log entry. -/
theorem read_yaml_cache_idempotent (s : PState) (p : FPath) (v : JVal)
    (hf : lookupA s.yamlFS p = some (.mapping v)) :
    ∃ c : ConfigBox,
      (read_yaml s p).1 = .ok c ∧
      read_yaml (read_yaml s p).2 p =
        (.ok c,
          { (read_yaml s p).2 with
            log := (read_yaml s p).2.log ++ [⟨.info, yamlCacheHitMsg p⟩] }) ∧
      (read_yaml (read_yaml s p).2 p).2.reads = (read_yaml s p).2.reads := by
  cases hcache : lookupA s.cache p with
  | some w =>
    have h1 := read_yaml_hit s p w hcache
    have h2 : read_yaml (read_yaml s p).2 p =
        (.ok ⟨w⟩,
          { (read_yaml s p).2 with
            log := (read_yaml s p).2.log ++ [⟨.info, yamlCacheHitMsg p⟩] }) := by
      rw [h1]
      exact read_yaml_hit _ p w hcache
    exact ⟨⟨w⟩, by rw [h1], h2, by rw [h2]⟩
  | none =>
    have h1 := read_yaml_ok s p v hcache hf
    have h2 : read_yaml (read_yaml s p).2 p =
        (.ok ⟨v⟩,
          { (read_yaml s p).2 with
            log := (read_yaml s p).2.log ++ [⟨.info, yamlCacheHitMsg p⟩] }) := by
      rw [h1]
      exact read_yaml_hit _ p v (lookupA_cons_self _ p v)
    exact ⟨⟨v⟩, by rw [h1], h2, by rw [h2]⟩

theorem read_yaml_ok2 (s : PState) (p : FPath) (v : JVal)
    (hc : lookupA s.cache p = none) (hl : yamlLoad s.yamlFS p = .ok (some v)) :
    read_yaml s p =
      (.ok ⟨v⟩,
        { s with
          reads := s.reads + 1,
          cache := (p, v) :: s.cache,
          log := s.log ++ [⟨.info, yamlLoadedMsg p⟩] }) := by
  unfold read_yaml
  rw [hc, hl]

theorem read_yaml_empty2 (s : PState) (p : FPath)
    (hc : lookupA s.cache p = none) (hl : yamlLoad s.yamlFS p = .ok none) :
    read_yaml s p =
      (.error (.valueError emptyYamlMsg),
        { s with
          reads := s.reads + 1,
          log := s.log ++ [⟨.info, yamlLoadedMsg p⟩] }) := by
  unfold read_yaml
  rw [hc, hl]

theorem read_yaml_miss_reads (s : PState) (p : FPath)
    (hc : lookupA s.cache p = none) :
    (read_yaml s p).2.reads = s.reads + 1 := by
  unfold read_yaml
  rw [hc]
  cases hl : yamlLoad s.yamlFS p with
  | ok ov => cases ov <;> rfl
  | error e => rfl

/-- C2: a config file whose parsed content is empty makes `read_yaml`
fail with the dedicated `ValueError` carrying "yaml file is empty", not
with a generic parse or I/O failure. -/
theorem read_yaml_empty_rejected (s : PState) (p : FPath)
    (hc : lookupA s.cache p = none) (hf : lookupA s.yamlFS p = some .empty) :
    (read_yaml s p).1 = .error (.valueError emptyYamlMsg) := by
  rw [read_yaml_emptyDoc s p hc hf]

/-- C7: every `read_yaml` failure other than the empty-document case
appends exactly one error-level log entry whose message carries the path
and the underlying cause, and then propagates the original exception
unchanged. -/
theorem read_yaml_error_propagation (s : PState) (p : FPath) (e : PyErr)
    (hc : lookupA s.cache p = none) (hf : yamlLoad s.yamlFS p = .error e) :
    (read_yaml s p).1 = .error e ∧
    (read_yaml s p).2.log =
      s.log ++ [⟨.error, "Error reading YAML file at " ++ pathStr p ++ ": " ++ errStr e⟩] := by
  rw [read_yaml_err s p e hc hf]
  exact ⟨rfl, rfl⟩

/-- C9: one `read_yaml` call writes at most one new cache entry; a
failing call writes none, so a repeat call for the same path opens the
file again. -/
theorem read_yaml_cache_write_bound (s : PState) (p : FPath) :
    ((read_yaml s p).2.cache = s.cache ∨
      ∃ v, (read_yaml s p).1 = .ok ⟨v⟩ ∧ (read_yaml s p).2.cache = (p, v) :: s.cache) ∧
    (∀ e, (read_yaml s p).1 = .error e →
      (read_yaml s p).2.cache = s.cache ∧
      (read_yaml (read_yaml s p).2 p).2.reads = (read_yaml s p).2.reads + 1) := by
  cases hcache : lookupA s.cache p with
  | some w =>
    have h1 := read_yaml_hit s p w hcache
    constructor
    · left; rw [h1]
    · intro e he
      rw [h1] at he
      exact absurd he (by simp)
  | none =>
    cases hl : yamlLoad s.yamlFS p with
    | ok ov =>
      cases ov with
      | some v =>
        have h1 := read_yaml_ok2 s p v hcache hl
        constructor
        · right; exact ⟨v, by rw [h1], by rw [h1]⟩
        · intro e he
          rw [h1] at he
          exact absurd he (by simp)
      | none =>
        have h1 := read_yaml_empty2 s p hcache hl
        constructor
        · left; rw [h1]
        · intro e he
          refine ⟨by rw [h1], ?_⟩
          rw [h1]
          exact read_yaml_miss_reads _ p hcache
    | error e0 =>
      have h1 := read_yaml_err s p e0 hcache hl
      constructor
      · left; rw [h1]
      · intro e he
        refine ⟨by rw [h1], ?_⟩
        rw [h1]
        exact read_yaml_miss_reads _ p hcache

theorem read_yaml_cache_idempotent_witness :
    let s0 : PState :=
      ⟨[(["config.yaml"], .mapping (.jobj [("key", .jstr "val")]))], [], [], [], [], [], [], 0⟩
    let p0 : FPath := ["config.yaml"]
    lookupA s0.yamlFS p0 = some (.mapping (.jobj [("key", .jstr "val")])) ∧
    (∃ c : ConfigBox,
      (read_yaml s0 p0).1 = .ok c ∧
      read_yaml (read_yaml s0 p0).2 p0 =
        (.ok c,
          { (read_yaml s0 p0).2 with
            log := (read_yaml s0 p0).2.log ++ [⟨.info, yamlCacheHitMsg p0⟩] }) ∧
      (read_yaml (read_yaml s0 p0).2 p0).2.reads = (read_yaml s0 p0).2.reads) := by
  exact ⟨rfl, read_yaml_cache_idempotent _ _ _ rfl⟩

theorem read_yaml_empty_rejected_witness :
    let s0 : PState := ⟨[(["params.yaml"], .empty)], [], [], [], [], [], [], 0⟩
    let p0 : FPath := ["params.yaml"]
    lookupA s0.cache p0 = none ∧ lookupA s0.yamlFS p0 = some .empty ∧
    (read_yaml s0 p0).1 = .error (.valueError emptyYamlMsg) := by
  exact ⟨rfl, rfl, read_yaml_empty_rejected _ _ rfl rfl⟩

theorem read_yaml_error_propagation_witness :
    let s0 : PState := ⟨[(["schema.yaml"], .malformed "could not find expected key")], [], [], [], [], [], [], 0⟩
    let p0 : FPath := ["schema.yaml"]
    lookupA s0.cache p0 = none ∧
    yamlLoad s0.yamlFS p0 = .error (.yamlParseError "could not find expected key") ∧
    ((read_yaml s0 p0).1 = .error (.yamlParseError "could not find expected key") ∧
      (read_yaml s0 p0).2.log =
        s0.log ++
          [⟨.error,
            "Error reading YAML file at " ++ pathStr p0 ++ ": " ++
              errStr (.yamlParseError "could not find expected key")⟩]) := by
  exact ⟨rfl, rfl, read_yaml_error_propagation _ _ _ rfl rfl⟩

theorem read_yaml_cache_write_bound_witness :
    let s0 : PState := ⟨[], [], [], [], [], [], [], 0⟩
    let p0 : FPath := ["missing.yaml"]
    ((read_yaml s0 p0).2.cache = s0.cache ∨
      ∃ v, (read_yaml s0 p0).1 = .ok ⟨v⟩ ∧ (read_yaml s0 p0).2.cache = (p0, v) :: s0.cache) ∧
    (∀ e, (read_yaml s0 p0).1 = .error e →
      (read_yaml s0 p0).2.cache = s0.cache ∧
      (read_yaml (read_yaml s0 p0).2 p0).2.reads = (read_yaml s0 p0).2.reads + 1) := by
  exact read_yaml_cache_write_bound _ _

/-- C3 as stated is refuted: on this concrete state the config file is
empty, the load fails with the empty-document `ValueError`, and yet the
informational "loaded successfully" log entry has been emitted - because
the source logs success right after `yaml.safe_load`, before the
`ConfigBox` construction that fails. -/
theorem read_yaml_success_log_on_failure :
    (read_yaml (⟨[(["empty.yaml"], .empty)], [], [], [], [], [], [], 0⟩ : PState)
        ["empty.yaml"]).1 = .error (.valueError emptyYamlMsg) ∧
    (read_yaml (⟨[(["empty.yaml"], .empty)], [], [], [], [], [], [], 0⟩ : PState)
        ["empty.yaml"]).2.log = [⟨.info, yamlLoadedMsg ["empty.yaml"]⟩] := by
  exact ⟨rfl, rfl⟩

/-- C3, amended: on a cache miss the steps of a successful load are:
open and parse the file, emit the informational success log entry, then
wrap the parsed content in a ConfigBox, store it in the cache under the
given path, and return it; the success log entry is emitted whenever
parsing yields a document (so also on the empty-document failure that
follows), not only when the load as a whole succeeds. -/
theorem read_yaml_success_path (s : PState) (p : FPath)
    (hc : lookupA s.cache p = none) :
    (∀ v, lookupA s.yamlFS p = some (.mapping v) →
      read_yaml s p =
        (.ok ⟨v⟩,
          { s with
            reads := s.reads + 1,
            cache := (p, v) :: s.cache,
            log := s.log ++ [⟨.info, yamlLoadedMsg p⟩] })) ∧
    (lookupA s.yamlFS p = some .empty →
      read_yaml s p =
        (.error (.valueError emptyYamlMsg),
          { s with
            reads := s.reads + 1,
            log := s.log ++ [⟨.info, yamlLoadedMsg p⟩] })) := by
  exact ⟨fun v hf => read_yaml_ok s p v hc hf, fun hf => read_yaml_emptyDoc s p hc hf⟩

theorem read_yaml_success_path_witness :
    let s0 : PState := ⟨[(["cfg.yaml"], .mapping (.jobj [("n", .jint 3)]))], [], [], [], [], [], [], 0⟩
    let p0 : FPath := ["cfg.yaml"]
    lookupA s0.cache p0 = none ∧
    ((∀ v, lookupA s0.yamlFS p0 = some (.mapping v) →
      read_yaml s0 p0 =
        (.ok ⟨v⟩,
          { s0 with
            reads := s0.reads + 1,
            cache := (p0, v) :: s0.cache,
            log := s0.log ++ [⟨.info, yamlLoadedMsg p0⟩] })) ∧
    (lookupA s0.yamlFS p0 = some .empty →
      read_yaml s0 p0 =
        (.error (.valueError emptyYamlMsg),
          { s0 with
            reads := s0.reads + 1,
            log := s0.log ++ [⟨.info, yamlLoadedMsg p0⟩] }))) := by
  exact ⟨rfl, read_yaml_success_path _ _ rfl⟩

theorem load_json_missing (s : PState) (p : FPath)
    (h : lookupA s.jsonFS p = none) :
    load_json s p = (.error (.fileNotFound (pathStr p)), { s with reads := s.reads + 1 }) := by
  unfold load_json
  rw [h]

theorem load_bin_missing (s : PState) (p : FPath)
    (h : lookupA s.binFS p = none) :
    load_bin s p = (.error (.fileNotFound (pathStr p)), { s with reads := s.reads + 1 }) := by
  unfold load_bin
  rw [h]

theorem get_size_missing (s : PState) (p : FPath)
    (h : lookupA s.sizeFS p = none) :
    get_size s p = .error (.fileNotFound (pathStr p)) := by
  unfold get_size
  rw [h]

/-- C8 as stated is refuted: loading a nonexistent JSON artifact fails
(`FileNotFoundError` from `open`), and the log stays empty - `load_json`
has no error logging at all, so zero error-level lines are emitted
before the failure propagates. -/
theorem load_json_failure_unlogged :
    (load_json (⟨[], [], [], [], [], [], [], 0⟩ : PState) ["scores.json"]).1 =
      .error (.fileNotFound (pathStr ["scores.json"])) ∧
    (load_json (⟨[], [], [], [], [], [], [], 0⟩ : PState) ["scores.json"]).2.log = [] := by
  exact ⟨rfl, rfl⟩

theorem load_json_parse_err (s : PState) (p : FPath) (ts : List Tok) (e : PyErr)
    (h : lookupA s.jsonFS p = some ts) (h2 : jsonParse ts = .error e) :
    load_json s p = (.error e, { s with reads := s.reads + 1 }) := by
  simp only [load_json, h, h2]

theorem load_json_nonMapping (s : PState) (p : FPath) (ts : List Tok) (v : JVal)
    (h : lookupA s.jsonFS p = some ts) (h2 : jsonParse ts = .ok v)
    (h3 : ∀ kvs, v ≠ .jobj kvs) :
    load_json s p =
      (.error .boxValueError,
        { s with
          reads := s.reads + 1,
          log := s.log ++ [⟨.info, jsonLoadedMsg p⟩] }) := by
  simp only [load_json, h, h2]

theorem load_bin_corrupt (s : PState) (p : FPath) (m : String)
    (h : lookupA s.binFS p = some (.corrupt m)) :
    load_bin s p = (.error (.unpicklingError m), { s with reads := s.reads + 1 }) := by
  unfold load_bin
  rw [h]

/-- C8, amended: among the core operations only `read_yaml` emits an
error-level log line before propagating a failure, and only for
failures other than the empty-document case. Every other failure
propagates without an error-level line: a missing or unparsable JSON
artifact, a missing or corrupt binary artifact, and a missing path in
`get_size` leave the log unchanged, while the failures that strike
after a successful parse (the empty config document, top-level
non-mapping JSON content) emit only the informational success line
that precedes the failing `ConfigBox` construction. -/
theorem failure_logging_policy (s : PState) (p : FPath) :
    (∀ e, lookupA s.cache p = none → yamlLoad s.yamlFS p = .error e →
      (read_yaml s p).1 = .error e ∧
      (read_yaml s p).2.log = s.log ++ [⟨.error, yamlErrorMsg p e⟩]) ∧
    (lookupA s.cache p = none → lookupA s.yamlFS p = some .empty →
      (read_yaml s p).1 = .error (.valueError emptyYamlMsg) ∧
      (read_yaml s p).2.log = s.log ++ [⟨.info, yamlLoadedMsg p⟩]) ∧
    (lookupA s.jsonFS p = none →
      (load_json s p).1 = .error (.fileNotFound (pathStr p)) ∧
      (load_json s p).2.log = s.log) ∧
    (∀ ts e, lookupA s.jsonFS p = some ts → jsonParse ts = .error e →
      (load_json s p).1 = .error e ∧ (load_json s p).2.log = s.log) ∧
    (∀ ts v, lookupA s.jsonFS p = some ts → jsonParse ts = .ok v →
      (∀ kvs, v ≠ .jobj kvs) →
      (load_json s p).1 = .error .boxValueError ∧
      (load_json s p).2.log = s.log ++ [⟨.info, jsonLoadedMsg p⟩]) ∧
    (lookupA s.binFS p = none →
      (load_bin s p).1 = .error (.fileNotFound (pathStr p)) ∧
      (load_bin s p).2.log = s.log) ∧
    (∀ m, lookupA s.binFS p = some (.corrupt m) →
      (load_bin s p).1 = .error (.unpicklingError m) ∧
      (load_bin s p).2.log = s.log) ∧
    (lookupA s.sizeFS p = none →
      get_size s p = .error (.fileNotFound (pathStr p))) := by
  refine ⟨?_, ?_, ?_, ?_, ?_, ?_, ?_, ?_⟩
  · intro e hc hf
    rw [read_yaml_err s p e hc hf]
    exact ⟨rfl, rfl⟩
  · intro hc hf
    rw [read_yaml_emptyDoc s p hc hf]
    exact ⟨rfl, rfl⟩
  · intro h
    rw [load_json_missing s p h]
    exact ⟨rfl, rfl⟩
  · intro ts e h h2
    rw [load_json_parse_err s p ts e h h2]
    exact ⟨rfl, rfl⟩
  · intro ts v h h2 h3
    rw [load_json_nonMapping s p ts v h h2 h3]
    exact ⟨rfl, rfl⟩
  · intro h
    rw [load_bin_missing s p h]
    exact ⟨rfl, rfl⟩
  · intro m h
    rw [load_bin_corrupt s p m h]
    exact ⟨rfl, rfl⟩
  · intro h
    exact get_size_missing s p h

theorem failure_logging_policy_witness :
    let s0 : PState :=
      ⟨[(["bad.yaml"], .malformed "could not determine a constructor")],
        [(["num.json"], [.tint 5])],
        [(["model.joblib"], .corrupt "invalid load key")],
        [], [], [], [], 0⟩
    ((read_yaml s0 ["bad.yaml"]).1 =
        .error (.yamlParseError "could not determine a constructor") ∧
      (read_yaml s0 ["bad.yaml"]).2.log =
        s0.log ++
          [⟨.error,
            yamlErrorMsg ["bad.yaml"] (.yamlParseError "could not determine a constructor")⟩]) ∧
    ((load_json s0 ["num.json"]).1 = .error .boxValueError ∧
      (load_json s0 ["num.json"]).2.log =
        s0.log ++ [⟨.info, jsonLoadedMsg ["num.json"]⟩]) ∧
    ((load_bin s0 ["model.joblib"]).1 = .error (.unpicklingError "invalid load key") ∧
      (load_bin s0 ["model.joblib"]).2.log = s0.log) ∧
    (load_json s0 ["missing.json"]).2.log = s0.log ∧
    get_size s0 ["missing.txt"] = .error (.fileNotFound (pathStr ["missing.txt"])) := by
  intro s0
  refine ⟨(failure_logging_policy s0 ["bad.yaml"]).1 _ rfl rfl,
    (failure_logging_policy s0 ["num.json"]).2.2.2.2.1 [.tint 5] (.jint 5) rfl rfl
      (fun kvs hk => JVal.noConfusion hk),
    (failure_logging_policy s0 ["model.joblib"]).2.2.2.2.2.2.1 _ rfl,
    ((failure_logging_policy s0 ["missing.json"]).2.2.1 rfl).2,
    (failure_logging_policy s0 ["missing.txt"]).2.2.2.2.2.2.2 rfl⟩

theorem load_json_parse_ok (s : PState) (p : FPath) (ts : List Tok)
    (kvs : List (String × JVal))
    (h : lookupA s.jsonFS p = some ts) (h2 : jsonParse ts = .ok (.jobj kvs)) :
    load_json s p =
      (.ok ⟨.jobj kvs⟩,
        { s with
          reads := s.reads + 1,
          log := s.log ++ [⟨.info, jsonLoadedMsg p⟩] }) := by
  simp only [load_json, h, h2]

/-- C6: JSON round-trip: saving any string-keyed mapping with
`save_json` and loading it back with `load_json` yields a ConfigBox
equal to the saved mapping. -/
theorem save_load_json_roundtrip (s : PState) (p : FPath)
    (d : List (String × JVal)) :
    (load_json (save_json s p d) p).1 = .ok ⟨.jobj d⟩ := by
  rw [load_json_parse_ok (save_json s p d) p (dumpToks (.jobj d)) d
    (lookupA_cons_self _ p _) (jsonParse_dump (.jobj d))]

/-- C4: `get_size` on a file of `n` bytes reports the plain byte count
below 1024 bytes, the value over 1024 in KB with two decimals and the
approximation marker from 1024 bytes up (inclusive), and the value over
1024 squared in MB with two decimals and the approximation marker from
1024 squared bytes up (inclusive). -/
theorem get_size_tiers (s : PState) (p : FPath) (n : Nat)
    (h : lookupA s.sizeFS p = some n) :
    (n < 1024 → get_size s p = .ok (toString n ++ " bytes")) ∧
    (1024 ≤ n → n < 1024 ^ 2 → get_size s p = .ok ("~ " ++ fix2 n 1024 ++ " KB")) ∧
    (1024 ^ 2 ≤ n → get_size s p = .ok ("~ " ++ fix2 n (1024 ^ 2) ++ " MB")) := by
  have hg : get_size s p = .ok (formatSize n) := by
    unfold get_size
    rw [h]
  refine ⟨?_, ?_, ?_⟩
  · intro h1
    rw [hg]
    unfold formatSize
    rw [if_pos h1]
  · intro h1 h2
    rw [hg]
    unfold formatSize
    rw [if_neg (by omega), if_pos h2]
  · intro h1
    rw [hg]
    unfold formatSize
    rw [if_neg (by omega), if_neg (by omega)]

theorem get_size_tiers_witness :
    let s0 : PState :=
      ⟨[], [], [],
        [(["a.txt"], 1023), (["b.txt"], 1024), (["c.txt"], 1048575), (["d.txt"], 1048576)],
        [], [], [], 0⟩
    lookupA s0.sizeFS ["a.txt"] = some 1023 ∧
    get_size s0 ["a.txt"] = .ok ("1023 bytes") ∧
    get_size s0 ["b.txt"] = .ok ("~ 1.00 KB") ∧
    get_size s0 ["c.txt"] = .ok ("~ 1024.00 KB") ∧
    get_size s0 ["d.txt"] = .ok ("~ 1.00 MB") := by
  intro s0
  have ha := (get_size_tiers s0 ["a.txt"] 1023 rfl).1 (by omega)
  have hb := (get_size_tiers s0 ["b.txt"] 1024 rfl).2.1 (by omega) (by omega)
  have hc := (get_size_tiers s0 ["c.txt"] 1048575 rfl).2.1 (by omega) (by omega)
  have hd := (get_size_tiers s0 ["d.txt"] 1048576 rfl).2.2 (by omega)
  exact ⟨rfl, ha.trans (by rfl), hb.trans (by rfl), hc.trans (by rfl), hd.trans (by rfl)⟩

theorem addDir_mem_self (acc : List FPath) (q : FPath) : q ∈ addDir acc q := by
  unfold addDir
  by_cases h : q ∈ acc
  · rw [if_pos h]; exact h
  · rw [if_neg h]; exact List.mem_append_right _ (List.mem_singleton.mpr rfl)

theorem addDir_mono (acc : List FPath) (q x : FPath) (h : x ∈ acc) : x ∈ addDir acc q := by
  unfold addDir
  by_cases h2 : q ∈ acc
  · rw [if_pos h2]; exact h
  · rw [if_neg h2]; exact List.mem_append_left _ h

theorem foldl_addDir_mono (l : List FPath) (ds : List FPath) (x : FPath)
    (h : x ∈ ds) : x ∈ l.foldl addDir ds := by
  induction l generalizing ds with
  | nil => exact h
  | cons q l2 ih => exact ih _ (addDir_mono ds q x h)

theorem foldl_addDir_mem (l : List FPath) (ds : List FPath) (q : FPath) :
    q ∈ l → q ∈ l.foldl addDir ds := by
  induction l generalizing ds with
  | nil => intro h; cases h
  | cons q2 l2 ih =>
    intro h
    cases h with
    | head => exact foldl_addDir_mono l2 _ _ (addDir_mem_self ds _)
    | tail _ h2 => exact ih _ h2

theorem mem_pathInits_self (p : FPath) (hp : p ≠ []) : p ∈ pathInits p := by
  unfold pathInits
  exact List.mem_filter.mpr ⟨(List.mem_inits p p).mpr (List.prefix_refl p), by simpa using hp⟩

theorem makedirs_mem (ds : List FPath) (p : FPath) (hp : p ≠ []) :
    p ∈ makedirs ds p := by
  unfold makedirs
  exact foldl_addDir_mem _ ds p (mem_pathInits_self p hp)

theorem makedirs_mono (ds : List FPath) (p x : FPath) (h : x ∈ ds) :
    x ∈ makedirs ds p := by
  unfold makedirs
  exact foldl_addDir_mono _ ds x h

theorem createDirStep_dirs_of_mem (vb : Bool) (s : PState) (p : FPath)
    (h : p ∈ s.dirs) : (createDirStep vb s p).dirs = s.dirs := by
  unfold createDirStep
  rw [if_pos h]
  by_cases hv : vb
  · rw [if_pos hv]
  · rw [if_neg hv]

theorem createDirStep_mem (vb : Bool) (s : PState) (p : FPath) (hp : p ≠ []) :
    p ∈ (createDirStep vb s p).dirs := by
  unfold createDirStep
  by_cases h : p ∈ s.dirs
  · rw [if_pos h]
    by_cases hv : vb
    · rw [if_pos hv]; exact h
    · rw [if_neg hv]; exact h
  · rw [if_neg h]
    exact makedirs_mem s.dirs p hp

theorem createDirStep_mono (vb : Bool) (s : PState) (p x : FPath)
    (h : x ∈ s.dirs) : x ∈ (createDirStep vb s p).dirs := by
  unfold createDirStep
  by_cases h2 : p ∈ s.dirs
  · rw [if_pos h2]
    by_cases hv : vb
    · rw [if_pos hv]; exact h
    · rw [if_neg hv]; exact h
  · rw [if_neg h2]
    exact makedirs_mono s.dirs p x h

theorem create_directories_mono (s : PState) (ps : List FPath) (vb : Bool)
    (x : FPath) (h : x ∈ s.dirs) : x ∈ (create_directories s ps vb).dirs := by
  induction ps generalizing s with
  | nil => exact h
  | cons p ps2 ih => exact ih _ (createDirStep_mono vb s p x h)

theorem create_directories_mem (s : PState) (ps : List FPath) (vb : Bool) :
    (∀ p ∈ ps, p ≠ []) → ∀ p ∈ ps, p ∈ (create_directories s ps vb).dirs := by
  induction ps generalizing s with
  | nil => intro h p hp; cases hp
  | cons q ps2 ih =>
    intro h p hp
    cases hp with
    | head =>
      exact create_directories_mono _ ps2 vb _
        (createDirStep_mem vb s _ (h _ (List.mem_cons_self _ ps2)))
    | tail _ h2 =>
      exact ih _ (fun r hr => h r (List.mem_cons_of_mem q hr)) p h2

theorem create_directories_noop (s : PState) (ps : List FPath) (vb : Bool) :
    (∀ p ∈ ps, p ∈ s.dirs) → (create_directories s ps vb).dirs = s.dirs := by
  induction ps generalizing s with
  | nil => intro h; rfl
  | cons q ps2 ih =>
    intro h
    have hq : q ∈ s.dirs := h q (List.mem_cons_self q ps2)
    have hstep := createDirStep_dirs_of_mem vb s q hq
    have hrest : ∀ p ∈ ps2, p ∈ (createDirStep vb s q).dirs := by
      rw [hstep]
      exact fun p hp => h p (List.mem_cons_of_mem q hp)
    have h3 := ih (createDirStep vb s q) hrest
    calc (create_directories (createDirStep vb s q) ps2 vb).dirs
        = (createDirStep vb s q).dirs := h3
      _ = s.dirs := hstep

/-- C5: `create_directories` is idempotent: after one call every listed
(nonempty) path denotes an existing directory, missing parents included,
and a second call with the same input changes the directory set not at
all. -/
theorem create_directories_idempotent (s : PState) (ps : List FPath) (vb : Bool)
    (h : ∀ p ∈ ps, p ≠ []) :
    (∀ p ∈ ps, p ∈ (create_directories s ps vb).dirs) ∧
    (create_directories (create_directories s ps vb) ps vb).dirs =
      (create_directories s ps vb).dirs := by
  have h1 := create_directories_mem s ps vb h
  exact ⟨h1, create_directories_noop _ ps vb h1⟩

theorem create_directories_idempotent_witness :
    let s0 : PState := ⟨[], [], [], [], [], [], [], 0⟩
    let ps0 : List FPath := [["artifacts"], ["artifacts", "raw"]]
    (∀ p ∈ ps0, p ≠ []) ∧
    ((∀ p ∈ ps0, p ∈ (create_directories s0 ps0 true).dirs) ∧
      (create_directories (create_directories s0 ps0 true) ps0 true).dirs =
        (create_directories s0 ps0 true).dirs) := by
  exact ⟨by decide, create_directories_idempotent _ _ _ (by decide)⟩

/-- C10: every decorated public entry point - `read_yaml`,
`create_directories`, `save_json`, `load_json`, `save_bin`, `load_bin`,
`get_size` - enforces its declared parameter types at call time: a
mistyped argument (a plain string where a Path is declared, a non-list
where a list is declared, a non-dict where a dict is declared) makes
the call fail with the `EnsureError` of the decorator, and the state -
filesystem, cache, log, open counter - stays untouched, so the check
happens before any filesystem access or cache mutation. The `data`
parameter of `save_bin` is declared `Any` and accepts every value, and
the `verbose` parameter of `create_directories` carries no declared
type and is not checked. -/
theorem ensure_type_enforcement (s : PState) (a : PyVal) (vb : Bool)
    (h : ∀ q, a ≠ .vpath q) (hl : ∀ l, a ≠ .vlist l) :
    read_yaml_dyn s a = (.error (.ensureError ensureMsg), s) ∧
    load_json_dyn s a = (.error (.ensureError ensureMsg), s) ∧
    create_directories_dyn s a vb = (.error (.ensureError ensureMsg), s) ∧
    (∀ b, save_json_dyn s a b = (.error (.ensureError ensureMsg), s)) ∧
    (∀ q b, (∀ d, b ≠ .vdict d) →
      save_json_dyn s (.vpath q) b = (.error (.ensureError ensureMsg), s)) ∧
    (∀ dat, save_bin_dyn s dat a = (.error (.ensureError ensureMsg), s)) ∧
    load_bin_dyn s a = (.error (.ensureError ensureMsg), s) ∧
    get_size_dyn s a = (.error (.ensureError ensureMsg), s) := by
  refine ⟨?_, ?_, ?_, ?_, ?_, ?_, ?_, ?_⟩
  · cases a with
    | vpath q => exact absurd rfl (h q)
    | vstr t => rfl
    | vint n => rfl
    | vbool b => rfl
    | vdict d => rfl
    | vlist l => rfl
  · cases a with
    | vpath q => exact absurd rfl (h q)
    | vstr t => rfl
    | vint n => rfl
    | vbool b => rfl
    | vdict d => rfl
    | vlist l => rfl
  · cases a with
    | vpath q => rfl
    | vstr t => rfl
    | vint n => rfl
    | vbool b => rfl
    | vdict d => rfl
    | vlist l => exact absurd rfl (hl l)
  · intro b
    cases a with
    | vpath q => exact absurd rfl (h q)
    | vstr t => cases b <;> rfl
    | vint n => cases b <;> rfl
    | vbool b2 => cases b <;> rfl
    | vdict d => cases b <;> rfl
    | vlist l => cases b <;> rfl
  · intro q b hb
    cases b with
    | vpath q2 => rfl
    | vstr t => rfl
    | vint n => rfl
    | vbool b2 => rfl
    | vdict d => exact absurd rfl (hb d)
    | vlist l => rfl
  · intro dat
    cases a with
    | vpath q => exact absurd rfl (h q)
    | vstr t => rfl
    | vint n => rfl
    | vbool b => rfl
    | vdict d => rfl
    | vlist l => rfl
  · cases a with
    | vpath q => exact absurd rfl (h q)
    | vstr t => rfl
    | vint n => rfl
    | vbool b => rfl
    | vdict d => rfl
    | vlist l => rfl
  · cases a with
    | vpath q => exact absurd rfl (h q)
    | vstr t => rfl
    | vint n => rfl
    | vbool b => rfl
    | vdict d => rfl
    | vlist l => rfl

theorem ensure_type_enforcement_witness :
    let s0 : PState :=
      ⟨[(["config.yaml"], .mapping (.jobj [("k", .jint 1)]))], [], [], [], [], [], [], 0⟩
    let a0 : PyVal := .vstr "config.yaml"
    (∀ q, a0 ≠ .vpath q) ∧ (∀ l, a0 ≠ .vlist l) ∧
    (read_yaml_dyn s0 a0 = (.error (.ensureError ensureMsg), s0) ∧
    load_json_dyn s0 a0 = (.error (.ensureError ensureMsg), s0) ∧
    create_directories_dyn s0 a0 true = (.error (.ensureError ensureMsg), s0) ∧
    (∀ b, save_json_dyn s0 a0 b = (.error (.ensureError ensureMsg), s0)) ∧
    (∀ q b, (∀ d, b ≠ .vdict d) →
      save_json_dyn s0 (.vpath q) b = (.error (.ensureError ensureMsg), s0)) ∧
    (∀ dat, save_bin_dyn s0 dat a0 = (.error (.ensureError ensureMsg), s0)) ∧
    load_bin_dyn s0 a0 = (.error (.ensureError ensureMsg), s0) ∧
    get_size_dyn s0 a0 = (.error (.ensureError ensureMsg), s0)) := by
  refine ⟨fun q hq => PyVal.noConfusion hq, fun l hl => PyVal.noConfusion hl,
    ensure_type_enforcement _ _ true ?_ ?_⟩
  · exact fun q hq => PyVal.noConfusion hq
  · exact fun l hl => PyVal.noConfusion hl
